import Mathlib

/-!
Verification of the `ecoacoustics` log-mel spectrogram transform
(`src/ecoacoustics/transforms/logmelspectrogram.py`, class `LogMelSpectrogramNp`).

The Python code is embedded shallowly over the real numbers:
`np.ndarray` values become functions `ℕ → ℝ` (1-D) or `ℕ → ℕ → ℝ` (2-D)
together with explicit shape data, float arithmetic becomes exact real
arithmetic, and fallible operations (numpy `ValueError`s) return
`Except String _`.
-/

namespace Ecoacoustics

/-- Source function `hertz_to_mel`: given the configuration constants
`mel_high_freq_q` and `mel_break_freq_hertz` (attributes `self.mel_high_freq_q`
and `self.mel_break_freq_hertz`), returns
`mel_high_freq_q * np.log(1.0 + (frequencies_hertz / mel_break_freq_hertz))`. -/
noncomputable def hertz_to_mel (mel_high_freq_q mel_break_freq_hertz frequencies_hertz : ℝ) : ℝ :=
  mel_high_freq_q * Real.log (1 + frequencies_hertz / mel_break_freq_hertz)

/-- Embedding of `np.linspace(a, b, num)` at index `i`: `a + i * ((b - a) / (num - 1))`.
For `num = 1` numpy returns `[a]`; our formula also yields `a` there because
real division by zero is zero. -/
noncomputable def linspace (a b : ℝ) (num : ℕ) (i : ℕ) : ℝ :=
  a + (i : ℝ) * ((b - a) / ((num : ℝ) - 1))

/-- The frame count computed by `frame` in the source:
`1 + int(np.floor((num_samples - window_length) / hop_length))`.
The Python expression floors the exact quotient, i.e. floor division on ℤ. -/
def num_frames (num_samples window_length hop_length : ℕ) : ℤ :=
  1 + Int.fdiv ((num_samples : ℤ) - (window_length : ℤ)) (hop_length : ℤ)

/-- Source function `frame`.  It builds, via `np.lib.stride_tricks.as_strided`
with strides `(stride * hop_length, stride)`, a view whose row `i`, column `j`
is `data[i * hop_length + j]`, with `num_frames` rows.  When the computed
`num_frames` is negative, `as_strided` (i.e. the `np.ndarray` constructor)
raises `ValueError: negative dimensions are not allowed`; this is modelled by
the `Except.error` branch. -/
def frame (data : ℕ → ℝ) (num_samples window_length hop_length : ℕ) :
    Except String (ℕ × (ℕ → ℕ → ℝ)) :=
  if num_frames num_samples window_length hop_length < 0 then
    Except.error "negative dimensions are not allowed"
  else
    Except.ok ((num_frames num_samples window_length hop_length).toNat,
      fun i j => data (i * hop_length + j))

/-- Source function `periodic_hann`:
`0.5 - (0.5 * np.cos(2 * np.pi / window_length * np.arange(window_length)))`,
read at index `n`. -/
noncomputable def periodic_hann (window_length : ℕ) (n : ℕ) : ℝ :=
  0.5 - (0.5 * Real.cos (2 * Real.pi / (window_length : ℝ) * (n : ℝ)))

/-- The mel values of the `num_spectrogram_bins` linearly spaced spectrogram bin
frequencies, `spectrogram_bins_mel = hertz_to_mel(np.linspace(0, nyquist, K))`
in the source, read at index `k`. -/
noncomputable def spectrogram_bins_mel (q brk audio_sample_rate : ℝ)
    (num_spectrogram_bins k : ℕ) : ℝ :=
  hertz_to_mel q brk (linspace 0 (audio_sample_rate / 2) num_spectrogram_bins k)

/-- Source expression `band_edges_mel = np.linspace(hertz_to_mel(lower_edge_hertz),
hertz_to_mel(upper_edge_hertz), num_mel_bins + 2)` from the source, at index `i`. -/
noncomputable def mel_band_edges (q brk lower_edge_hertz upper_edge_hertz : ℝ)
    (num_mel_bins : ℕ) (i : ℕ) : ℝ :=
  linspace (hertz_to_mel q brk lower_edge_hertz) (hertz_to_mel q brk upper_edge_hertz)
    (num_mel_bins + 2) i

/-- The triangular filter weight written into `mel_weights_matrix[:, i]` by the
loop body of `spectrogram_to_mel_matrix`:
`np.maximum(0.0, np.minimum(lower_slope, upper_slope))` with
`lower_slope = (spectrogram_bins_mel - lower_edge_mel) / (center_mel - lower_edge_mel)` and
`upper_slope = (upper_edge_mel - spectrogram_bins_mel) / (upper_edge_mel - center_mel)`,
where `(lower_edge_mel, center_mel, upper_edge_mel) = band_edges_mel[i : i + 3]`. -/
noncomputable def mel_weight_raw (q brk : ℝ) (num_mel_bins num_spectrogram_bins : ℕ)
    (audio_sample_rate lower_edge_hertz upper_edge_hertz : ℝ) (k i : ℕ) : ℝ :=
  max 0 (min
    ((spectrogram_bins_mel q brk audio_sample_rate num_spectrogram_bins k -
        mel_band_edges q brk lower_edge_hertz upper_edge_hertz num_mel_bins i) /
      (mel_band_edges q brk lower_edge_hertz upper_edge_hertz num_mel_bins (i + 1) -
        mel_band_edges q brk lower_edge_hertz upper_edge_hertz num_mel_bins i))
    ((mel_band_edges q brk lower_edge_hertz upper_edge_hertz num_mel_bins (i + 2) -
        spectrogram_bins_mel q brk audio_sample_rate num_spectrogram_bins k) /
      (mel_band_edges q brk lower_edge_hertz upper_edge_hertz num_mel_bins (i + 2) -
        mel_band_edges q brk lower_edge_hertz upper_edge_hertz num_mel_bins (i + 1))))

/-- The matrix returned by `spectrogram_to_mel_matrix` after the final
`mel_weights_matrix[0, :] = 0.0` assignment: row `0` is overwritten with zeros,
every other row keeps the triangular weights of the loop. -/
noncomputable def mel_weights_matrix (q brk : ℝ) (num_mel_bins num_spectrogram_bins : ℕ)
    (audio_sample_rate lower_edge_hertz upper_edge_hertz : ℝ) (k i : ℕ) : ℝ :=
  if k = 0 then 0
  else mel_weight_raw q brk num_mel_bins num_spectrogram_bins audio_sample_rate
    lower_edge_hertz upper_edge_hertz k i

/-- Source function `spectrogram_to_mel_matrix`: the three validation checks
(each raising `ValueError`), then the matrix construction. -/
noncomputable def spectrogram_to_mel_matrix (q brk : ℝ) (num_mel_bins num_spectrogram_bins : ℕ)
    (audio_sample_rate lower_edge_hertz upper_edge_hertz : ℝ) :
    Except String (ℕ → ℕ → ℝ) :=
  if lower_edge_hertz < 0 then
    Except.error "lower_edge_hertz must be >= 0"
  else if lower_edge_hertz ≥ upper_edge_hertz then
    Except.error "lower_edge_hertz >= upper_edge_hertz"
  else if upper_edge_hertz > audio_sample_rate / 2 then
    Except.error "upper_edge_hertz is greater than Nyquist"
  else
    Except.ok (mel_weights_matrix q brk num_mel_bins num_spectrogram_bins audio_sample_rate
      lower_edge_hertz upper_edge_hertz)

/-- Entry `m` of `np.fft.rfft(x, fft_length)` for a real input sequence `x`:
`∑ t < fft_length, x t * exp(-2πi * m * t / fft_length)`.  numpy zero-pads or
truncates `x` to `fft_length` samples; the caller passes the padded sequence. -/
noncomputable def rfft_entry (x : ℕ → ℝ) (fft_length : ℕ) (m : ℕ) : ℂ :=
  ∑ t ∈ Finset.range fft_length,
    (x t : ℂ) * Complex.exp (-2 * (Real.pi : ℂ) * Complex.I * (m : ℂ) * (t : ℂ) / (fft_length : ℂ))

/-- Entry `(i, m)` of `stft_magnitude`: frame `i` is multiplied pointwise by the
periodic Hann window of length `window_length`, implicitly zero-padded to
`fft_length` samples (numpy truncates instead when `fft_length < window_length`,
which the `if t < window_length` guard also reproduces), transformed by
`np.fft.rfft`, and the complex magnitude is taken. -/
noncomputable def stft_magnitude_entry (frames : ℕ → ℕ → ℝ)
    (fft_length window_length : ℕ) (i m : ℕ) : ℝ :=
  Complex.abs (rfft_entry
    (fun t => if t < window_length then frames i t * periodic_hann window_length t else 0)
    fft_length m)

/-- Entry `(f, i)` of `np.dot(spectrogram, mel_matrix)` in `forward`:
the row-by-column product over the `num_spectrogram_bins` spectrogram bins. -/
noncomputable def mel_spectrogram_entry (frames A : ℕ → ℕ → ℝ)
    (fft_length window_length num_spectrogram_bins : ℕ) (f i : ℕ) : ℝ :=
  ∑ k ∈ Finset.range num_spectrogram_bins,
    stft_magnitude_entry frames fft_length window_length f k * A k i

/-- Entry `(f, i)` of the value returned by `forward`:
`np.log(mel_spectrogram + log_offset)`. -/
noncomputable def log_mel_entry (frames A : ℕ → ℕ → ℝ)
    (fft_length window_length num_spectrogram_bins : ℕ) (log_offset : ℝ) (f i : ℕ) : ℝ :=
  Real.log (mel_spectrogram_entry frames A fft_length window_length num_spectrogram_bins f i
    + log_offset)

/-- Embedding of `np.ndarray.squeeze(axis=0)`: removes the leading axis when it has extent 1,
raises `ValueError` when it has any other extent, and raises an axis-out-of-bounds
error on a 0-d array. -/
def squeeze0 (shape : List ℕ) : Except String (List ℕ) :=
  match shape with
  | [] => Except.error "axis 0 is out of bounds for array of dimension 0"
  | d :: rest =>
    if d = 1 then Except.ok rest
    else Except.error "cannot select an axis to squeeze out which has size not equal to one"

/-- The constructor parameters of `LogMelSpectrogramNp.__init__`, with the
source's default values. -/
structure LogMelSpectrogramNp where
  sample_rate : ℕ := 16000
  stft_window_length_seconds : ℝ := 0.025
  stft_hop_length_seconds : ℝ := 0.010
  log_offset : ℝ := 0.01
  num_mel_bins : ℕ := 64
  mel_min_hz : ℝ := 125
  mel_max_hz : ℝ := 7500
  mel_break_freq_hertz : ℝ := 700.0
  mel_high_freq_q : ℝ := 1127.0

/-- Source assignment `self.window_length_samples = int(round(sample_rate * stft_window_length_seconds))`. -/
noncomputable def LogMelSpectrogramNp.window_length_samples (c : LogMelSpectrogramNp) : ℤ :=
  round ((c.sample_rate : ℝ) * c.stft_window_length_seconds)

/-- Source assignment `self.hop_length_samples = int(round(sample_rate * stft_hop_length_seconds))`. -/
noncomputable def LogMelSpectrogramNp.hop_length_samples (c : LogMelSpectrogramNp) : ℤ :=
  round ((c.sample_rate : ℝ) * c.stft_hop_length_seconds)

/-- Source expression `2 ** int(np.ceil(np.log(window_length_samples) / np.log(2.0)))` from
`__init__`, as a function of the (nonnegative) window length in samples. -/
noncomputable def fft_length_of (window_length_samples : ℕ) : ℕ :=
  2 ^ (Int.ceil (Real.log (window_length_samples : ℝ) / Real.log 2)).toNat

/-- Source attribute `self.fft_length` as computed by `__init__`. -/
noncomputable def LogMelSpectrogramNp.fft_length (c : LogMelSpectrogramNp) : ℕ :=
  fft_length_of c.window_length_samples.toNat

/-- Source method `forward`: squeeze axis 0 off the input shape, read the
number of samples from the resulting 1-D shape, frame the signal, build the mel
filterbank matrix (propagating its `ValueError`s), and return the
`(num_frames, num_mel_bins)` array of `log(mel_spectrogram + log_offset)`
values.  The returned pair is (number of frames, entry function). -/
noncomputable def LogMelSpectrogramNp.forward (c : LogMelSpectrogramNp)
    (shape : List ℕ) (data : ℕ → ℝ) : Except String (ℕ × (ℕ → ℕ → ℝ)) := do
  let shape1 ← squeeze0 shape
  let num_samples ← match shape1 with
    | [] => Except.error "tuple index out of range"
    | n :: _ => Except.ok n
  let framed ← frame data num_samples c.window_length_samples.toNat c.hop_length_samples.toNat
  let A ← spectrogram_to_mel_matrix c.mel_high_freq_q c.mel_break_freq_hertz
    c.num_mel_bins (c.fft_length / 2 + 1) (c.sample_rate : ℝ) c.mel_min_hz c.mel_max_hz
  Except.ok (framed.1, fun f i =>
    log_mel_entry framed.2 A c.fft_length c.window_length_samples.toNat
      (c.fft_length / 2 + 1) c.log_offset f i)

/-- Modelled from the spec (section 4.4): the mel value of the `k`-th of `K`
evenly spaced Hz values from 0 to Nyquist, using
`mel(f) = high_freq_q · ln(1 + f/break_freq)`. -/
noncomputable def spec_bin_mel (q brk rate : ℝ) (K k : ℕ) : ℝ :=
  q * Real.log (1 + ((k : ℝ) * ((rate / 2) / ((K : ℝ) - 1))) / brk)

/-- Modelled from the spec (section 4.4): the `i`-th of `M + 2` evenly spaced
mel values from `mel(lower_edge_hz)` to `mel(upper_edge_hz)`. -/
noncomputable def spec_band_edge (q brk lo hi : ℝ) (M i : ℕ) : ℝ :=
  q * Real.log (1 + lo / brk) +
    (i : ℝ) * ((q * Real.log (1 + hi / brk) - q * Real.log (1 + lo / brk)) / ((M : ℝ) + 1))

/-- Modelled from the spec (section 4.4 / claim C1): entry `[k, i]` of the
filterbank, `max(0, min((spec_mel[k] − lower_i)/(center_i − lower_i),
(upper_i − spec_mel[k])/(upper_i − center_i)))` where `(lower_i, center_i,
upper_i)` are band edges `i, i+1, i+2`. -/
noncomputable def spec_mel_matrix_entry (q brk rate lo hi : ℝ) (M K k i : ℕ) : ℝ :=
  max 0 (min
    ((spec_bin_mel q brk rate K k - spec_band_edge q brk lo hi M i) /
      (spec_band_edge q brk lo hi M (i + 1) - spec_band_edge q brk lo hi M i))
    ((spec_band_edge q brk lo hi M (i + 2) - spec_bin_mel q brk rate K k) /
      (spec_band_edge q brk lo hi M (i + 2) - spec_band_edge q brk lo hi M (i + 1))))

/-- Predicate stating that `n` is a power of two. -/
def IsPow2 (n : ℕ) : Prop := ∃ j : ℕ, n = 2 ^ j

lemma hertz_to_mel_zero (q brk : ℝ) : hertz_to_mel q brk 0 = 0 := by
  simp [hertz_to_mel]

lemma hertz_to_mel_nonneg (q brk f : ℝ) (hq : 0 < q) (hbrk : 0 < brk) (hf : 0 ≤ f) :
    0 ≤ hertz_to_mel q brk f := by
  have hdiv : 0 ≤ f / brk := div_nonneg hf hbrk.le
  exact mul_nonneg hq.le (Real.log_nonneg (by linarith))

lemma hertz_to_mel_lt (q brk lo hi : ℝ) (hq : 0 < q) (hbrk : 0 < brk)
    (h1 : 0 ≤ lo) (h2 : lo < hi) :
    hertz_to_mel q brk lo < hertz_to_mel q brk hi := by
  have hpos : (0:ℝ) < 1 + lo / brk := by
    have : 0 ≤ lo / brk := div_nonneg h1 hbrk.le
    linarith
  have harg : 1 + lo / brk < 1 + hi / brk := by
    have : lo / brk < hi / brk := by gcongr
    linarith
  exact mul_lt_mul_of_pos_left (Real.log_lt_log hpos harg) hq

lemma linspace_succ_sub (a b : ℝ) (num i : ℕ) :
    linspace a b num (i + 1) - linspace a b num i = (b - a) / ((num : ℝ) - 1) := by
  simp only [linspace]
  push_cast
  ring

lemma mel_band_edges_sub (q brk lo hi : ℝ) (M i : ℕ) :
    mel_band_edges q brk lo hi M (i + 1) - mel_band_edges q brk lo hi M i =
      (hertz_to_mel q brk hi - hertz_to_mel q brk lo) / ((M : ℝ) + 1) := by
  unfold mel_band_edges
  rw [linspace_succ_sub]
  push_cast
  ring_nf

lemma mel_band_edges_nonneg (q brk lo hi : ℝ) (M i : ℕ) (hq : 0 < q) (hbrk : 0 < brk)
    (h1 : 0 ≤ lo) (h2 : lo < hi) :
    0 ≤ mel_band_edges q brk lo hi M i := by
  have ha : 0 ≤ hertz_to_mel q brk lo := hertz_to_mel_nonneg q brk lo hq hbrk h1
  have hab : hertz_to_mel q brk lo < hertz_to_mel q brk hi :=
    hertz_to_mel_lt q brk lo hi hq hbrk h1 h2
  unfold mel_band_edges linspace
  have hden : (0:ℝ) < ((M + 2 : ℕ) : ℝ) - 1 := by
    push_cast
    linarith [Nat.cast_nonneg (α := ℝ) M]
  have hstep : 0 ≤ (hertz_to_mel q brk hi - hertz_to_mel q brk lo) / (((M + 2 : ℕ)) - 1 : ℝ) :=
    div_nonneg (by linarith) hden.le
  have := mul_nonneg (Nat.cast_nonneg (α := ℝ) i) hstep
  push_cast at hstep this ⊢
  nlinarith

/-- Claim C5: `periodic_hann L` agrees with the spec formula
`w[n] = 0.5 − 0.5·cos(2π·n / L)` at every index `n`, `w[0] = 0` exactly, and
every value lies in `[0, 1]`. -/
theorem C5_periodic_hann (L n : ℕ) (hL : 1 < L) :
    periodic_hann L n = 0.5 - 0.5 * Real.cos (2 * Real.pi * (n : ℝ) / (L : ℝ)) ∧
    periodic_hann L 0 = 0 ∧
    0 ≤ periodic_hann L n ∧ periodic_hann L n ≤ 1 := by
  refine ⟨?_, ?_, ?_, ?_⟩
  · unfold periodic_hann
    rw [show 2 * Real.pi / (L : ℝ) * (n : ℝ) = 2 * Real.pi * (n : ℝ) / (L : ℝ) by ring]
  · unfold periodic_hann
    norm_num
  · have h := Real.cos_le_one (2 * Real.pi / (L : ℝ) * (n : ℝ))
    unfold periodic_hann
    linarith
  · have h := Real.neg_one_le_cos (2 * Real.pi / (L : ℝ) * (n : ℝ))
    unfold periodic_hann
    linarith

/-- Witness for C5 at `L = 2`, `n = 1`. -/
theorem C5_witness :
    1 < 2 ∧
    (periodic_hann 2 1 = 0.5 - 0.5 * Real.cos (2 * Real.pi * ((1 : ℕ) : ℝ) / ((2 : ℕ) : ℝ)) ∧
     periodic_hann 2 0 = 0 ∧
     0 ≤ periodic_hann 2 1 ∧ periodic_hann 2 1 ≤ 1) :=
  ⟨by norm_num, C5_periodic_hann 2 1 (by norm_num)⟩

/-- Claim C2: for a signal of `N` samples with window `W > 0`, hop `H > 0` and
`N ≥ W`, `frame` succeeds with exactly `1 + (N − W) / H` rows (floor division),
and row `i`, column `j` reads the input sample at position `i·H + j`; no
padding is added and trailing samples are dropped. -/
theorem C2_frame (data : ℕ → ℝ) (N W H : ℕ) (hW : 0 < W) (hH : 0 < H) (hWN : W ≤ N) :
    frame data N W H = Except.ok (1 + (N - W) / H, fun i j => data (i * H + j)) := by
  have hnum : num_frames N W H = ((1 + (N - W) / H : ℕ) : ℤ) := by
    unfold num_frames
    rw [Int.fdiv_eq_ediv _ (by positivity)]
    rw [show (N : ℤ) - (W : ℤ) = ((N - W : ℕ) : ℤ) by omega]
    push_cast
    ring
  unfold frame
  rw [hnum]
  rw [if_neg (not_lt.mpr (Int.natCast_nonneg _))]
  rw [Int.toNat_natCast]

/-- Witness for C2 at `N = 100`, `W = 25`, `H = 10` (8 frames). -/
theorem C2_witness :
    0 < 25 ∧ 0 < 10 ∧ 25 ≤ 100 ∧
    frame (fun _ => (0:ℝ)) 100 25 10 =
      Except.ok (1 + (100 - 25) / 10, fun i j => (fun _ => (0:ℝ)) (i * 10 + j)) :=
  ⟨by norm_num, by norm_num, by norm_num,
   C2_frame (fun _ => (0:ℝ)) 100 25 10 (by norm_num) (by norm_num) (by norm_num)⟩

/-- Counterexample to claim C3 as stated: for the 5-sample signal with window
25 and hop 10 (so `N < W`), `frame` does not produce zero frames — the computed
frame count is `1 + ⌊(5 − 25)/10⌋ = −1`, and the `as_strided` call raises
`ValueError: negative dimensions are not allowed`. -/
theorem C3_counterexample :
    frame (fun _ => (0:ℝ)) 5 25 10 = Except.error "negative dimensions are not allowed" := by
  rfl

/-- Amended claim C3: for a signal of `N` samples with `N < W` and positive hop
`H`, `frame` produces zero frames without error exactly when the shortfall is at
most one hop (`W ≤ N + H`); for shorter signals the computed frame count is
negative and the call raises a `ValueError`. -/
theorem C3_frame_amended (data : ℕ → ℝ) (N W H : ℕ) (hH : 0 < H) (hNW : N < W)
    (hWH : W ≤ N + H) :
    frame data N W H = Except.ok (0, fun i j => data (i * H + j)) := by
  have hnum : num_frames N W H = 0 := by
    unfold num_frames
    rw [Int.fdiv_eq_ediv _ (by positivity)]
    rw [show (N : ℤ) - W = ((N : ℤ) - W + H) + (-1) * H by ring]
    rw [Int.add_mul_ediv_right _ _ (by omega : (H : ℤ) ≠ 0)]
    rw [Int.ediv_eq_zero_of_lt (by omega) (by omega)]
    ring
  unfold frame
  rw [hnum]
  norm_num

/-- Witness for the amended C3 at `N = 20`, `W = 25`, `H = 10`. -/
theorem C3_witness :
    0 < 10 ∧ 20 < 25 ∧ 25 ≤ 20 + 10 ∧
    frame (fun _ => (0:ℝ)) 20 25 10 =
      Except.ok (0, fun i j => (fun _ => (0:ℝ)) (i * 10 + j)) :=
  ⟨by norm_num, by norm_num, by norm_num,
   C3_frame_amended (fun _ => (0:ℝ)) 20 25 10 (by norm_num) (by norm_num) (by norm_num)⟩

lemma spectrogram_to_mel_matrix_eq_ok (q brk rate lo hi : ℝ) (M K : ℕ)
    (h1 : 0 ≤ lo) (h2 : lo < hi) (h3 : hi ≤ rate / 2) :
    spectrogram_to_mel_matrix q brk M K rate lo hi =
      Except.ok (mel_weights_matrix q brk M K rate lo hi) := by
  unfold spectrogram_to_mel_matrix
  rw [if_neg (not_lt.mpr h1), if_neg (not_le.mpr h2), if_neg (not_lt.mpr h3)]

/-- Claim C4: `spectrogram_to_mel_matrix` succeeds (returning the filterbank
matrix) exactly when `0 ≤ lower_edge_hertz < upper_edge_hertz ≤ sample_rate/2`;
equivalently, it raises the `ValueError` (InvalidRange) if and only if one of
the three range conditions is violated, producing no matrix in that case. -/
theorem C4_validation (q brk rate lo hi : ℝ) (M K : ℕ) :
    spectrogram_to_mel_matrix q brk M K rate lo hi =
      Except.ok (mel_weights_matrix q brk M K rate lo hi) ↔
    (0 ≤ lo ∧ lo < hi ∧ hi ≤ rate / 2) := by
  constructor
  · intro h
    unfold spectrogram_to_mel_matrix at h
    split_ifs at h with h1 h2 h3
    all_goals first
    | exact ⟨not_lt.mp h1, not_le.mp h2, not_lt.mp h3⟩
    | simp at h
  · intro h
    exact spectrogram_to_mel_matrix_eq_ok q brk rate lo hi M K h.1 h.2.1 h.2.2

/-- Claim C6: for every parameter set passing validation, the construction
succeeds and row 0 (the DC bin) of the returned matrix is zero in every mel
column, by the final row-0 overwrite. -/
theorem C6_dc_row_zero (q brk rate lo hi : ℝ) (M K i : ℕ)
    (h1 : 0 ≤ lo) (h2 : lo < hi) (h3 : hi ≤ rate / 2) :
    spectrogram_to_mel_matrix q brk M K rate lo hi =
      Except.ok (mel_weights_matrix q brk M K rate lo hi) ∧
    mel_weights_matrix q brk M K rate lo hi 0 i = 0 := by
  constructor
  · exact spectrogram_to_mel_matrix_eq_ok q brk rate lo hi M K h1 h2 h3
  · simp [mel_weights_matrix]

lemma spec_band_edge_eq (q brk lo hi : ℝ) (M i : ℕ) :
    mel_band_edges q brk lo hi M i = spec_band_edge q brk lo hi M i := by
  unfold mel_band_edges linspace spec_band_edge hertz_to_mel
  push_cast
  ring

lemma spec_bin_mel_eq (q brk rate : ℝ) (K k : ℕ) :
    spectrogram_bins_mel q brk rate K k = spec_bin_mel q brk rate K k := by
  have harg : linspace 0 (rate / 2) K k = (k : ℝ) * ((rate / 2) / ((K : ℝ) - 1)) := by
    unfold linspace
    ring
  unfold spectrogram_bins_mel hertz_to_mel spec_bin_mel
  rw [harg]

lemma mel_band_edges_step_pos (q brk lo hi : ℝ) (M i : ℕ) (hq : 0 < q) (hbrk : 0 < brk)
    (h1 : 0 ≤ lo) (h2 : lo < hi) :
    0 < mel_band_edges q brk lo hi M (i + 1) - mel_band_edges q brk lo hi M i := by
  rw [mel_band_edges_sub]
  have hab := hertz_to_mel_lt q brk lo hi hq hbrk h1 h2
  have hden : (0:ℝ) < (M : ℝ) + 1 := by positivity
  exact div_pos (by linarith) hden

lemma triangular_le_one (x l c u : ℝ) (hcl : 0 < c - l) (huc : 0 < u - c) :
    min ((x - l) / (c - l)) ((u - x) / (u - c)) ≤ 1 := by
  rcases le_total x c with hxc | hxc
  · exact le_trans (min_le_left _ _) (by rw [div_le_one hcl]; linarith)
  · exact le_trans (min_le_right _ _) (by rw [div_le_one huc]; linarith)

lemma triangular_zero_at_origin (l c u : ℝ) (hl : 0 ≤ l) (hcl : 0 < c - l) :
    max 0 (min ((0 - l) / (c - l)) ((u - 0) / (u - c))) = 0 := by
  have hls : (0 - l) / (c - l) ≤ 0 :=
    div_nonpos_iff.mpr (Or.inr ⟨by linarith, hcl.le⟩)
  exact max_eq_left (le_trans (min_le_left _ _) hls)

lemma spec_bin_mel_zero (q brk rate : ℝ) (K : ℕ) : spec_bin_mel q brk rate K 0 = 0 := by
  unfold spec_bin_mel
  norm_num

/-- Witness for C6 at the source's default configuration, mel column 3. -/
theorem C6_witness :
    (0:ℝ) ≤ 125 ∧ (125:ℝ) < 7500 ∧ (7500:ℝ) ≤ 16000 / 2 ∧
    (spectrogram_to_mel_matrix 1127 700 64 257 16000 125 7500 =
       Except.ok (mel_weights_matrix 1127 700 64 257 16000 125 7500) ∧
     mel_weights_matrix 1127 700 64 257 16000 125 7500 0 3 = 0) :=
  ⟨by norm_num, by norm_num, by norm_num,
   C6_dc_row_zero 1127 700 16000 125 7500 64 257 3 (by norm_num) (by norm_num) (by norm_num)⟩

lemma spec_entry_row_zero (q brk rate lo hi : ℝ) (M K i : ℕ) (hq : 0 < q) (hbrk : 0 < brk)
    (h1 : 0 ≤ lo) (h2 : lo < hi) :
    spec_mel_matrix_entry q brk rate lo hi M K 0 i = 0 := by
  have hl : 0 ≤ spec_band_edge q brk lo hi M i := by
    rw [← spec_band_edge_eq]
    exact mel_band_edges_nonneg q brk lo hi M i hq hbrk h1 h2
  have hcl : 0 < spec_band_edge q brk lo hi M (i + 1) - spec_band_edge q brk lo hi M i := by
    rw [← spec_band_edge_eq, ← spec_band_edge_eq]
    exact mel_band_edges_step_pos q brk lo hi M i hq hbrk h1 h2
  unfold spec_mel_matrix_entry
  rw [spec_bin_mel_zero]
  exact triangular_zero_at_origin _ _ _ hl hcl

/-- Claim C1: for every parameter set passing validation with positive mel
constants and `M ≥ 1`, `spectrogram_to_mel_matrix` succeeds and its matrix
agrees, at every entry `[k, i]`, with the spec's formula: `K` evenly spaced Hz
values from 0 to Nyquist mapped to mel (HTK convention), `M + 2` evenly spaced
mel band edges from `mel(lower)` to `mel(upper)`, and weight
`max(0, min(lower_slope, upper_slope))`.  At `k = 0` the source's DC overwrite
coincides with the formula because the first spectrogram bin sits at 0 mel, at
or below every lower band edge. -/
theorem C1_matrix_matches_spec (q brk rate lo hi : ℝ) (M K k i : ℕ)
    (hq : 0 < q) (hbrk : 0 < brk) (hM : 1 ≤ M)
    (h1 : 0 ≤ lo) (h2 : lo < hi) (h3 : hi ≤ rate / 2) :
    spectrogram_to_mel_matrix q brk M K rate lo hi =
      Except.ok (mel_weights_matrix q brk M K rate lo hi) ∧
    mel_weights_matrix q brk M K rate lo hi k i =
      spec_mel_matrix_entry q brk rate lo hi M K k i := by
  refine ⟨spectrogram_to_mel_matrix_eq_ok q brk rate lo hi M K h1 h2 h3, ?_⟩
  unfold mel_weights_matrix
  by_cases hk : k = 0
  · subst hk
    rw [if_pos rfl, spec_entry_row_zero q brk rate lo hi M K i hq hbrk h1 h2]
  · rw [if_neg hk]
    unfold mel_weight_raw spec_mel_matrix_entry
    rw [spec_bin_mel_eq, spec_band_edge_eq q brk lo hi M i,
      spec_band_edge_eq q brk lo hi M (i + 1), spec_band_edge_eq q brk lo hi M (i + 2)]

/-- Witness for C1 at the default configuration, entry `(5, 3)`. -/
theorem C1_witness :
    (0:ℝ) < 1127 ∧ (0:ℝ) < 700 ∧ 1 ≤ 64 ∧ (0:ℝ) ≤ 125 ∧ (125:ℝ) < 7500 ∧
    (7500:ℝ) ≤ 16000 / 2 ∧
    (spectrogram_to_mel_matrix 1127 700 64 257 16000 125 7500 =
       Except.ok (mel_weights_matrix 1127 700 64 257 16000 125 7500) ∧
     mel_weights_matrix 1127 700 64 257 16000 125 7500 5 3 =
       spec_mel_matrix_entry 1127 700 16000 125 7500 64 257 5 3) :=
  ⟨by norm_num, by norm_num, by norm_num, by norm_num, by norm_num, by norm_num,
   C1_matrix_matches_spec 1127 700 16000 125 7500 64 257 5 3 (by norm_num) (by norm_num)
     (by norm_num) (by norm_num) (by norm_num) (by norm_num)⟩

/-- Claim C10 (implicit): under validation with positive mel constants and
`M ≥ 1`, every entry of the filterbank matrix lies in `[0, 1]`: the band edges
are strictly increasing, each weight is clipped below at 0, and
`min(lower_slope, upper_slope)` never exceeds 1. -/
theorem C10_weights_in_unit_interval (q brk rate lo hi : ℝ) (M K k i : ℕ)
    (hq : 0 < q) (hbrk : 0 < brk) (hM : 1 ≤ M)
    (h1 : 0 ≤ lo) (h2 : lo < hi) (h3 : hi ≤ rate / 2) :
    0 ≤ mel_weights_matrix q brk M K rate lo hi k i ∧
    mel_weights_matrix q brk M K rate lo hi k i ≤ 1 := by
  unfold mel_weights_matrix
  by_cases hk : k = 0
  · rw [if_pos hk]
    norm_num
  · rw [if_neg hk]
    unfold mel_weight_raw
    refine ⟨le_max_left _ _, max_le zero_le_one ?_⟩
    have hcl := mel_band_edges_step_pos q brk lo hi M i hq hbrk h1 h2
    have huc := mel_band_edges_step_pos q brk lo hi M (i + 1) hq hbrk h1 h2
    rw [show i + 1 + 1 = i + 2 by omega] at huc
    exact triangular_le_one _ _ _ _ hcl huc

/-- Witness for C10 at the default configuration, entry `(7, 2)`. -/
theorem C10_witness :
    (0:ℝ) < 1127 ∧ (0:ℝ) < 700 ∧ 1 ≤ 64 ∧ (0:ℝ) ≤ 125 ∧ (125:ℝ) < 7500 ∧
    (7500:ℝ) ≤ 16000 / 2 ∧
    (0 ≤ mel_weights_matrix 1127 700 64 257 16000 125 7500 7 2 ∧
     mel_weights_matrix 1127 700 64 257 16000 125 7500 7 2 ≤ 1) :=
  ⟨by norm_num, by norm_num, by norm_num, by norm_num, by norm_num, by norm_num,
   C10_weights_in_unit_interval 1127 700 16000 125 7500 64 257 7 2 (by norm_num) (by norm_num)
     (by norm_num) (by norm_num) (by norm_num) (by norm_num)⟩

lemma mel_weights_matrix_nonneg (q brk rate lo hi : ℝ) (M K k i : ℕ) :
    0 ≤ mel_weights_matrix q brk M K rate lo hi k i := by
  unfold mel_weights_matrix
  split_ifs
  · exact le_refl 0
  · exact le_max_left _ _

lemma stft_magnitude_entry_nonneg (frames : ℕ → ℕ → ℝ) (fft W i m : ℕ) :
    0 ≤ stft_magnitude_entry frames fft W i m := by
  unfold stft_magnitude_entry
  exact Complex.abs.nonneg _

lemma matrix_of_ok (q brk rate lo hi : ℝ) (M K : ℕ) (A : ℕ → ℕ → ℝ)
    (h : spectrogram_to_mel_matrix q brk M K rate lo hi = Except.ok A) :
    A = mel_weights_matrix q brk M K rate lo hi := by
  unfold spectrogram_to_mel_matrix at h
  split_ifs at h
  all_goals first
  | exact (Except.ok.inj h).symm
  | simp at h

/-- Claim C7: for every input whose spectrogram magnitudes are (necessarily)
non-negative and every configuration with positive `log_offset`, each log-mel
output entry of `forward` is the real logarithm of a strictly positive number
(so, in floating point, never NaN nor -infinity): the mel energies are sums of
products of non-negative magnitudes and non-negative filter weights, and
`log_offset` is added before the log. -/
theorem C7_log_argument_positive (frames A : ℕ → ℕ → ℝ) (q brk rate lo hi off : ℝ)
    (M K fft W f i : ℕ) (hoff : 0 < off)
    (hA : spectrogram_to_mel_matrix q brk M K rate lo hi = Except.ok A) :
    0 < mel_spectrogram_entry frames A fft W K f i + off ∧
    Real.exp (log_mel_entry frames A fft W K off f i) =
      mel_spectrogram_entry frames A fft W K f i + off := by
  have hAeq := matrix_of_ok q brk rate lo hi M K A hA
  have hmel : 0 ≤ mel_spectrogram_entry frames A fft W K f i := by
    unfold mel_spectrogram_entry
    apply Finset.sum_nonneg
    intro k _
    apply mul_nonneg (stft_magnitude_entry_nonneg frames fft W f k)
    rw [hAeq]
    exact mel_weights_matrix_nonneg q brk rate lo hi M K k i
  have hpos : 0 < mel_spectrogram_entry frames A fft W K f i + off := by linarith
  refine ⟨hpos, ?_⟩
  unfold log_mel_entry
  exact Real.exp_log hpos

/-- Witness for C7 at the default configuration on the zero signal, entry
`(0, 0)`. -/
theorem C7_witness :
    (0:ℝ) < 0.01 ∧
    spectrogram_to_mel_matrix 1127 700 64 257 16000 125 7500 =
      Except.ok (mel_weights_matrix 1127 700 64 257 16000 125 7500) ∧
    (0 < mel_spectrogram_entry (fun _ _ => 0)
          (mel_weights_matrix 1127 700 64 257 16000 125 7500) 512 400 257 0 0 + 0.01 ∧
     Real.exp (log_mel_entry (fun _ _ => 0)
          (mel_weights_matrix 1127 700 64 257 16000 125 7500) 512 400 257 0.01 0 0) =
       mel_spectrogram_entry (fun _ _ => 0)
          (mel_weights_matrix 1127 700 64 257 16000 125 7500) 512 400 257 0 0 + 0.01) := by
  have hok : spectrogram_to_mel_matrix 1127 700 64 257 16000 125 7500 =
      Except.ok (mel_weights_matrix 1127 700 64 257 16000 125 7500) :=
    spectrogram_to_mel_matrix_eq_ok 1127 700 16000 125 7500 64 257
      (by norm_num) (by norm_num) (by norm_num)
  exact ⟨by norm_num, hok,
    C7_log_argument_positive (fun _ _ => 0) (mel_weights_matrix 1127 700 64 257 16000 125 7500)
      1127 700 16000 125 7500 0.01 64 257 512 400 0 0 (by norm_num) hok⟩

lemma ceil_log2_le_iff (W k : ℕ) (h1 : 1 ≤ W) :
    (Int.ceil (Real.log (W : ℝ) / Real.log 2)).toNat ≤ k ↔ W ≤ 2 ^ k := by
  have hW0 : (0:ℝ) < (W : ℝ) := by exact_mod_cast h1
  have hlogb : Real.log (W : ℝ) / Real.log 2 = Real.logb 2 (W : ℝ) := rfl
  rw [hlogb, Int.toNat_le, Int.ceil_le,
    show (((k : ℕ) : ℤ) : ℝ) = ((k : ℕ) : ℝ) by push_cast; ring,
    Real.logb_le_iff_le_rpow one_lt_two hW0, Real.rpow_natCast]
  exact_mod_cast Iff.rfl

/-- Claim C8: `fft_length`, as computed at construction from
`window_length_samples = round(sample_rate · stft_window_length_seconds)`, is
the smallest power of two that is at least `window_length_samples`; in
particular when `window_length_samples` is itself a power of two, `fft_length`
equals it. -/
theorem C8_fft_length (c : LogMelSpectrogramNp) (W k : ℕ)
    (hW : c.window_length_samples.toNat = W) (h1 : 1 ≤ W) :
    W ≤ c.fft_length ∧ IsPow2 c.fft_length ∧
    (W ≤ 2 ^ k → c.fft_length ≤ 2 ^ k) ∧
    (W = 2 ^ k → c.fft_length = W) := by
  have hfft : c.fft_length = fft_length_of W := by
    unfold LogMelSpectrogramNp.fft_length
    rw [hW]
  rw [hfft]
  unfold fft_length_of
  set e := (Int.ceil (Real.log (W : ℝ) / Real.log 2)).toNat with he
  refine ⟨?_, ⟨e, rfl⟩, ?_, ?_⟩
  · exact (ceil_log2_le_iff W e h1).mp le_rfl
  · intro hWk
    exact Nat.pow_le_pow_right (by norm_num) ((ceil_log2_le_iff W k h1).mpr hWk)
  · intro hWk
    have hle : e ≤ k := (ceil_log2_le_iff W k h1).mpr (le_of_eq hWk)
    have hge : W ≤ 2 ^ e := (ceil_log2_le_iff W e h1).mp le_rfl
    have hpow : 2 ^ k ≤ 2 ^ e := hWk ▸ hge
    have hk : k ≤ e := (Nat.pow_le_pow_iff_right (by norm_num)).mp hpow
    rw [le_antisymm hle hk, ← hWk]

/-- Witness for C8 at the default configuration: `window_length_samples` is
`round(16000 · 0.025) = 400` and the next power of two is `512 = 2⁹`. -/
theorem C8_witness :
    ({} : LogMelSpectrogramNp).window_length_samples.toNat = 400 ∧ 1 ≤ 400 ∧
    (400 ≤ ({} : LogMelSpectrogramNp).fft_length ∧
     IsPow2 ({} : LogMelSpectrogramNp).fft_length ∧
     (400 ≤ 2 ^ 9 → ({} : LogMelSpectrogramNp).fft_length ≤ 2 ^ 9) ∧
     (400 = 2 ^ 9 → ({} : LogMelSpectrogramNp).fft_length = 400)) := by
  have hW : ({} : LogMelSpectrogramNp).window_length_samples.toNat = 400 := by
    show (round (((16000 : ℕ) : ℝ) * 0.025)).toNat = 400
    norm_num
    rfl
  exact ⟨hW, by norm_num, C8_fft_length {} 400 9 hW (by norm_num)⟩

/-- Claim C9 (implicit): `forward` requires an input tensor whose leading
dimension is exactly 1 (squeezing it away to reach the 1-D signal); for any
other leading dimension — including a genuinely 1-D input of length ≠ 1 — the
squeeze step raises and `forward` returns its error instead of a spectrogram. -/
theorem C9_squeeze_requires_unit_axis (c : LogMelSpectrogramNp) (data : ℕ → ℝ)
    (d : ℕ) (rest : List ℕ) (hd : d ≠ 1) :
    c.forward (d :: rest) data =
      Except.error "cannot select an axis to squeeze out which has size not equal to one" ∧
    squeeze0 (1 :: rest) = Except.ok rest := by
  constructor
  · have hsq : squeeze0 (d :: rest) =
        if d = 1 then Except.ok rest
        else Except.error "cannot select an axis to squeeze out which has size not equal to one" :=
      rfl
    unfold LogMelSpectrogramNp.forward
    rw [hsq, if_neg hd]
    rfl
  · have hsq : squeeze0 (1 :: rest) =
        if 1 = 1 then Except.ok rest
        else Except.error "cannot select an axis to squeeze out which has size not equal to one" :=
      rfl
    rw [hsq, if_pos rfl]

/-- Witness for C9: a 2-row input (shape `[2, 400]`) is rejected, while shape
`[1, 400]` squeezes to `[400]`. -/
theorem C9_witness :
    2 ≠ 1 ∧
    (({} : LogMelSpectrogramNp).forward (2 :: [400]) (fun _ => (0:ℝ)) =
       Except.error "cannot select an axis to squeeze out which has size not equal to one" ∧
     squeeze0 (1 :: [400]) = Except.ok [400]) :=
  ⟨by norm_num,
   C9_squeeze_requires_unit_axis {} (fun _ => (0:ℝ)) 2 [400] (by norm_num)⟩

end Ecoacoustics
